/-
Verification of the RTP header parser (src/rtp/header.rs, src/rtp/mod.rs).

The Rust code is shallowly embedded over byte buffers modelled as `List Nat`
(each element a byte value).  Machine integers are modelled as `Nat`; every
multi-byte big-endian read combines bytes exactly as `byteorder`'s
`NetworkEndian::read_u16` / `read_u32` do.  The `byteorder` reads panic when
the slice is shorter than the read width, so each read is embedded as an
`Option`-valued function returning `none` on an out-of-bounds read; the
parsers therefore return `Option (Except RtpError _)`, where the outer
`none` marks the (provably unreachable) fault branch and the inner
`Except` is the Rust `Result`.
-/
import Mathlib

set_option linter.unusedVariables false

/-- Big-endian 16-bit read of the first two bytes of a buffer, as
`NetworkEndian::read_u16`; `none` when fewer than two bytes remain
(the panic branch of `byteorder`). -/
def read_u16 : List Nat → Option Nat
  | b0 :: b1 :: _ => some (b0 * 256 + b1)
  | _ => none

/-- Big-endian 32-bit read of the first four bytes of a buffer, as
`NetworkEndian::read_u32`; `none` when fewer than four bytes remain. -/
def read_u32 : List Nat → Option Nat
  | b0 :: b1 :: b2 :: b3 :: _ =>
      some (b0 * 16777216 + b1 * 65536 + b2 * 256 + b3)
  | _ => none

/-- The loop `for _ in 0..n { data.push(read_u32(buf)); buf = &buf[4..]; }`
shared by the CSRC loop of `Header::from_buf` and the extension-data loop of
`HeaderExtension::from_buf`: read `n` consecutive big-endian 32-bit words,
returning the words in buffer order together with the remaining buffer. -/
def readWords : Nat → List Nat → Option (List Nat × List Nat)
  | 0, buf => some ([], buf)
  | n + 1, buf =>
    match read_u32 buf with
    | none => none
    | some w =>
      match readWords n (buf.drop 4) with
      | none => none
      | some (ws, rest) => some (w :: ws, rest)

/-- The 16-bit packed header-info word (`pub struct HeaderInfo(u16)`). -/
structure HeaderInfo where
  val : Nat
deriving DecidableEq

/-- Rust `(self.0 >> 14) as u8`. -/
def HeaderInfo.version (h : HeaderInfo) : Nat :=
  (h.val >>> 14) % 256

/-- Rust `((self.0 >> 13) & 0b1) == 1`. -/
def HeaderInfo.has_padding (h : HeaderInfo) : Bool :=
  ((h.val >>> 13) &&& 1) == 1

/-- Rust `((self.0 >> 12) & 0b1) == 1`. -/
def HeaderInfo.has_extension (h : HeaderInfo) : Bool :=
  ((h.val >>> 12) &&& 1) == 1

/-- Rust `((self.0 >> 8) & 0b1111) as u8`. -/
def HeaderInfo.csrc_count (h : HeaderInfo) : Nat :=
  ((h.val >>> 8) &&& 15) % 256

/-- Rust `((self.0 >> 7) & 0b1) == 1`. -/
def HeaderInfo.has_marker (h : HeaderInfo) : Bool :=
  ((h.val >>> 7) &&& 1) == 1

/-- Rust `(self.0 & 0b1111111) as u8`. -/
def HeaderInfo.payload_type (h : HeaderInfo) : Nat :=
  (h.val &&& 127) % 256

/-- The CSRC identifier list (`pub struct CSRCIdentifiers`). -/
structure CSRCIdentifiers where
  identifiers : List Nat
deriving DecidableEq

/-- The optional header extension block (`pub struct HeaderExtension`). -/
structure HeaderExtension where
  extension_id : Nat
  ehl : Nat
  extension : List Nat
deriving DecidableEq

/-- The decoded RTP header (`pub struct Header`). -/
structure Header where
  info : HeaderInfo
  sequence : Nat
  timestamp : Nat
  ssrc_identifier : Nat
  csrc_identifiers : CSRCIdentifiers
  extension : Option HeaderExtension
deriving DecidableEq

/-- The parse error type of src/rtp/mod.rs: a single variant carrying a
static message string. -/
inductive RtpError where
  | HeaderError (cause : String)
deriving DecidableEq

/-- The `Error::description` implementation of src/rtp/mod.rs: returns the
carried cause string. -/
def RtpError.description : RtpError → String
  | RtpError.HeaderError cause => cause

/-- `HeaderExtension::from_buf`: reject a buffer shorter than 4 bytes, read
the 16-bit extension id and the 16-bit extension-header length `ehl`,
reject when fewer than `ehl * 4` bytes remain, then read `ehl` 32-bit
words. -/
def HeaderExtension.from_buf (extension_buf : List Nat) :
    Option (Except RtpError HeaderExtension) :=
  if extension_buf.length < 4 then
    some (Except.error (RtpError.HeaderError
      ("Header extension does not contain required info.")))
  else
    match read_u16 extension_buf with
    | none => none
    | some id =>
      let buf1 := extension_buf.drop 2
      match read_u16 buf1 with
      | none => none
      | some ehl =>
        let buf2 := buf1.drop 2
        if buf2.length < ehl * 4 then
          some (Except.error (RtpError.HeaderError
            ("Header extension does not contain specified number of blocks.")))
        else
          match readWords ehl buf2 with
          | none => none
          | some (ws, _) =>
            some (Except.ok
              { extension_id := id, ehl := ehl, extension := ws })

/-- `Header::from_buf`: reject a buffer shorter than 12 bytes, read the
info word, sequence, timestamp and SSRC, check room for and read
`csrc_count` CSRC words, then, when the extension flag is set, delegate
the rest of the buffer to `HeaderExtension::from_buf`, propagating its
error unchanged (the `try!`). -/
def Header.from_buf (header_buf : List Nat) :
    Option (Except RtpError Header) :=
  if header_buf.length < 12 then
    some (Except.error (RtpError.HeaderError
      ("Buffer is too small to contain a valid header.")))
  else
    match read_u16 header_buf with
    | none => none
    | some infoVal =>
      let info : HeaderInfo := ⟨infoVal⟩
      let buf1 := header_buf.drop 2
      match read_u16 buf1 with
      | none => none
      | some seq =>
        let buf2 := buf1.drop 2
        match read_u32 buf2 with
        | none => none
        | some ts =>
          let buf3 := buf2.drop 4
          match read_u32 buf3 with
          | none => none
          | some ssrc_id =>
            let buf4 := buf3.drop 4
            let csrc_count := info.csrc_count
            if buf4.length < csrc_count * 4 then
              some (Except.error (RtpError.HeaderError
                ("Buffer does not contain the specified number of CSRC identifiers.")))
            else
              match readWords csrc_count buf4 with
              | none => none
              | some (csrc_data, buf5) =>
                if info.has_extension then
                  match HeaderExtension.from_buf buf5 with
                  | none => none
                  | some (Except.error e) => some (Except.error e)
                  | some (Except.ok ext) =>
                    some (Except.ok
                      { info := info, sequence := seq, timestamp := ts,
                        ssrc_identifier := ssrc_id,
                        csrc_identifiers := ⟨csrc_data⟩,
                        extension := some ext })
                else
                  some (Except.ok
                    { info := info, sequence := seq, timestamp := ts,
                      ssrc_identifier := ssrc_id,
                      csrc_identifiers := ⟨csrc_data⟩,
                      extension := none })

/-- The spec's name (§7) for the error produced when the buffer is shorter
than the fixed 12-byte header. -/
def HeaderTooSmall : RtpError :=
  RtpError.HeaderError ("Buffer is too small to contain a valid header.")

/-- The spec's name (§7) for the error produced when the declared CSRC
count exceeds the remaining buffer. -/
def InsufficientCsrcData : RtpError :=
  RtpError.HeaderError ("Buffer does not contain the specified number of CSRC identifiers.")

/-- The spec's name (§7) for the error produced when the extension flag is
set but fewer than 4 bytes remain for the extension id and length. -/
def ExtensionHeaderMissing : RtpError :=
  RtpError.HeaderError ("Header extension does not contain required info.")

/-- The spec's name (§7) for the error produced when the declared extension
word count exceeds the remaining buffer. -/
def InsufficientExtensionData : RtpError :=
  RtpError.HeaderError ("Header extension does not contain specified number of blocks.")

/-- Unfolding of `HeaderExtension.from_buf` on a buffer with at least the
4 bytes of extension id and length present. -/
theorem ext_from_buf_cons (e0 e1 e2 e3 : Nat) (tail : List Nat) :
    HeaderExtension.from_buf (e0 :: e1 :: e2 :: e3 :: tail) =
      (if tail.length < (e2 * 256 + e3) * 4 then
        some (Except.error InsufficientExtensionData)
      else
        match readWords (e2 * 256 + e3) tail with
        | none => none
        | some (ws, _) =>
          some (Except.ok
            { extension_id := e0 * 256 + e1, ehl := e2 * 256 + e3,
              extension := ws })) := rfl

/-- Unfolding of `Header.from_buf` on a buffer with at least the fixed
12 bytes present. -/
theorem from_buf_cons12 (b0 b1 b2 b3 b4 b5 b6 b7 b8 b9 b10 b11 : Nat)
    (rest : List Nat) :
    Header.from_buf
        (b0 :: b1 :: b2 :: b3 :: b4 :: b5 :: b6 :: b7 :: b8 :: b9 :: b10 :: b11 :: rest) =
      (if rest.length < (HeaderInfo.mk (b0 * 256 + b1)).csrc_count * 4 then
        some (Except.error InsufficientCsrcData)
      else
        match readWords (HeaderInfo.mk (b0 * 256 + b1)).csrc_count rest with
        | none => none
        | some (csrc_data, buf5) =>
          if (HeaderInfo.mk (b0 * 256 + b1)).has_extension then
            match HeaderExtension.from_buf buf5 with
            | none => none
            | some (Except.error e) => some (Except.error e)
            | some (Except.ok ext) =>
              some (Except.ok
                { info := HeaderInfo.mk (b0 * 256 + b1),
                  sequence := b2 * 256 + b3,
                  timestamp := b4 * 16777216 + b5 * 65536 + b6 * 256 + b7,
                  ssrc_identifier := b8 * 16777216 + b9 * 65536 + b10 * 256 + b11,
                  csrc_identifiers := ⟨csrc_data⟩,
                  extension := some ext })
          else
            some (Except.ok
              { info := HeaderInfo.mk (b0 * 256 + b1),
                sequence := b2 * 256 + b3,
                timestamp := b4 * 16777216 + b5 * 65536 + b6 * 256 + b7,
                ssrc_identifier := b8 * 16777216 + b9 * 65536 + b10 * 256 + b11,
                csrc_identifiers := ⟨csrc_data⟩,
                extension := none })) := rfl

/-- A list with at least 4 elements splits into four heads and a tail. -/
theorem exists_cons4 (l : List Nat) (h : 4 ≤ l.length) :
    ∃ a b c d t, l = a :: b :: c :: d :: t := by
  rcases l with _ | ⟨a, l⟩
  · simp at h
  rcases l with _ | ⟨b, l⟩
  · simp at h
  rcases l with _ | ⟨c, l⟩
  · simp at h
  rcases l with _ | ⟨d, l⟩
  · simp at h
  exact ⟨a, b, c, d, l, rfl⟩

/-- A list with at least 12 elements splits into twelve heads and a tail. -/
theorem exists_cons12 (l : List Nat) (h : 12 ≤ l.length) :
    ∃ b0 b1 b2 b3 b4 b5 b6 b7 b8 b9 b10 b11 t,
      l = b0 :: b1 :: b2 :: b3 :: b4 :: b5 :: b6 :: b7 :: b8 :: b9 :: b10 :: b11 :: t := by
  obtain ⟨b0, b1, b2, b3, l, rfl⟩ := exists_cons4 l (by omega)
  obtain ⟨b4, b5, b6, b7, l, rfl⟩ := exists_cons4 l (by simp at h ⊢; omega)
  obtain ⟨b8, b9, b10, b11, l, rfl⟩ := exists_cons4 l (by simp at h ⊢; omega)
  exact ⟨b0, b1, b2, b3, b4, b5, b6, b7, b8, b9, b10, b11, l, rfl⟩

/-- When the buffer holds at least `n * 4` bytes, `readWords n` succeeds,
returns `n` words, and leaves exactly the buffer past the first `n * 4`
bytes. -/
theorem readWords_eq (n : Nat) (l : List Nat) (h : n * 4 ≤ l.length) :
    ∃ ws, readWords n l = some (ws, l.drop (n * 4)) ∧ ws.length = n := by
  induction n generalizing l with
  | zero => exact ⟨[], by simp [readWords], rfl⟩
  | succ n ih =>
    obtain ⟨a, b, c, d, t, rfl⟩ := exists_cons4 l (by omega)
    have ht : n * 4 ≤ t.length := by simp at h; omega
    obtain ⟨ws, hws, hlen⟩ := ih t ht
    refine ⟨(a * 16777216 + b * 65536 + c * 256 + d) :: ws, ?_, by simp [hlen]⟩
    have hd : (a :: b :: c :: d :: t).drop ((n + 1) * 4) = t.drop (n * 4) := by
      have h4 : (n + 1) * 4 = n * 4 + 4 := by ring
      rw [h4]
      rfl
    rw [hd]
    simp only [readWords, read_u32, List.drop]
    rw [hws]

/-- Masking with 3 is reduction modulo 4. -/
theorem and_three_eq_mod (x : Nat) : x &&& 3 = x % 4 := by
  have h : (3 : Nat) = 2 ^ 2 - 1 := rfl
  rw [h, Nat.and_pow_two_sub_one_eq_mod]

/-- Masking with 15 is reduction modulo 16. -/
theorem and_fifteen_eq_mod (x : Nat) : x &&& 15 = x % 16 := by
  have h : (15 : Nat) = 2 ^ 4 - 1 := rfl
  rw [h, Nat.and_pow_two_sub_one_eq_mod]

/-- Masking with 127 is reduction modulo 128. -/
theorem and_127_eq_mod (x : Nat) : x &&& 127 = x % 128 := by
  have h : (127 : Nat) = 2 ^ 7 - 1 := rfl
  rw [h, Nat.and_pow_two_sub_one_eq_mod]

/-- The version accessor in division form. -/
theorem version_eq_div (h : HeaderInfo) : h.version = h.val / 16384 % 256 := by
  rw [HeaderInfo.version, Nat.shiftRight_eq_div_pow]

/-- The csrc_count accessor in division form. -/
theorem csrc_count_eq_div (h : HeaderInfo) : h.csrc_count = h.val / 256 % 16 := by
  rw [HeaderInfo.csrc_count, and_fifteen_eq_mod, Nat.shiftRight_eq_div_pow]
  norm_num
  omega

/-- The csrc_count accessor never exceeds 15. -/
theorem csrc_count_le (h : HeaderInfo) : h.csrc_count ≤ 15 := by
  rw [csrc_count_eq_div]
  omega

/-- The payload_type accessor in mod form. -/
theorem payload_type_eq_mod (h : HeaderInfo) : h.payload_type = h.val % 128 := by
  rw [HeaderInfo.payload_type, and_127_eq_mod]
  omega

/-- The padding flag as a bit test in division form. -/
theorem has_padding_iff (h : HeaderInfo) :
    h.has_padding = true ↔ h.val / 8192 % 2 = 1 := by
  rw [HeaderInfo.has_padding, Nat.and_one_is_mod, Nat.shiftRight_eq_div_pow]
  norm_num

/-- The extension flag as a bit test in division form. -/
theorem has_extension_iff (h : HeaderInfo) :
    h.has_extension = true ↔ h.val / 4096 % 2 = 1 := by
  rw [HeaderInfo.has_extension, Nat.and_one_is_mod, Nat.shiftRight_eq_div_pow]
  norm_num

/-- The marker flag as a bit test in division form. -/
theorem has_marker_iff (h : HeaderInfo) :
    h.has_marker = true ↔ h.val / 128 % 2 = 1 := by
  rw [HeaderInfo.has_marker, Nat.and_one_is_mod, Nat.shiftRight_eq_div_pow]
  norm_num

/-- A buffer shorter than 4 bytes makes the extension parser return the
missing-extension-header error. -/
theorem ext_too_small (ebuf : List Nat) (h : ebuf.length < 4) :
    HeaderExtension.from_buf ebuf = some (Except.error ExtensionHeaderMissing) := by
  unfold HeaderExtension.from_buf
  rw [if_pos h]
  rfl

/-- Insufficient trailing words make the extension parser return the
insufficient-extension-data error. -/
theorem ext_err_insufficient (e0 e1 e2 e3 : Nat) (tail : List Nat)
    (h : tail.length < (e2 * 256 + e3) * 4) :
    HeaderExtension.from_buf (e0 :: e1 :: e2 :: e3 :: tail) =
      some (Except.error InsufficientExtensionData) := by
  rw [ext_from_buf_cons, if_pos h]

/-- With enough trailing words the extension parser succeeds and returns
the declared id, length, and words read in order. -/
theorem ext_ok_char (e0 e1 e2 e3 : Nat) (tail : List Nat)
    (h : (e2 * 256 + e3) * 4 ≤ tail.length) :
    ∃ ws, readWords (e2 * 256 + e3) tail =
        some (ws, tail.drop ((e2 * 256 + e3) * 4)) ∧
      ws.length = e2 * 256 + e3 ∧
      HeaderExtension.from_buf (e0 :: e1 :: e2 :: e3 :: tail) =
        some (Except.ok ⟨e0 * 256 + e1, e2 * 256 + e3, ws⟩) := by
  obtain ⟨ws, hws, hlen⟩ := readWords_eq _ tail h
  refine ⟨ws, hws, hlen, ?_⟩
  rw [ext_from_buf_cons, if_neg (by omega), hws]

/-- The extension parser never reads out of bounds. -/
theorem ext_from_buf_isSome (ebuf : List Nat) :
    (HeaderExtension.from_buf ebuf).isSome := by
  by_cases h4 : ebuf.length < 4
  · rw [ext_too_small ebuf h4]
    rfl
  · obtain ⟨a, b, c, d, t, rfl⟩ := exists_cons4 ebuf (by omega)
    by_cases h2 : t.length < (c * 256 + d) * 4
    · rw [ext_err_insufficient a b c d t h2]
      rfl
    · obtain ⟨ws, _, _, hok⟩ := ext_ok_char a b c d t (by omega)
      rw [hok]
      rfl

/-- The only errors the extension parser produces are the two extension
errors. -/
theorem ext_err_closed (ebuf : List Nat) (e : RtpError)
    (h : HeaderExtension.from_buf ebuf = some (Except.error e)) :
    e = ExtensionHeaderMissing ∨ e = InsufficientExtensionData := by
  by_cases h4 : ebuf.length < 4
  · rw [ext_too_small ebuf h4] at h
    simp only [Option.some.injEq, Except.error.injEq] at h
    exact Or.inl h.symm
  · obtain ⟨a, b, c, d, t, rfl⟩ := exists_cons4 ebuf (by omega)
    by_cases h2 : t.length < (c * 256 + d) * 4
    · rw [ext_err_insufficient a b c d t h2] at h
      simp only [Option.some.injEq, Except.error.injEq] at h
      exact Or.inr h.symm
    · obtain ⟨ws, _, _, hok⟩ := ext_ok_char a b c d t (by omega)
      rw [hok] at h
      simp at h

/-- Structure of any successful extension parse: the buffer splits as four
header bytes and a tail, the result's fields come from those bytes, and
the data length matches the declared word count. -/
theorem ext_ok_inv (ebuf : List Nat) (ext : HeaderExtension)
    (h : HeaderExtension.from_buf ebuf = some (Except.ok ext)) :
    ext.extension.length = ext.ehl ∧ 4 ≤ ebuf.length ∧
      ext.ehl * 4 ≤ ebuf.length - 4 := by
  by_cases h4 : ebuf.length < 4
  · rw [ext_too_small ebuf h4] at h
    simp at h
  · obtain ⟨a, b, c, d, t, rfl⟩ := exists_cons4 ebuf (by omega)
    by_cases h2 : t.length < (c * 256 + d) * 4
    · rw [ext_err_insufficient a b c d t h2] at h
      simp at h
    · obtain ⟨ws, _, hlen, hok⟩ := ext_ok_char a b c d t (by omega)
      rw [hok] at h
      simp only [Option.some.injEq, Except.ok.injEq] at h
      subst h
      refine ⟨hlen, by simp, ?_⟩
      simp only [List.length_cons]
      omega

/-- A buffer shorter than 12 bytes makes the header parser return the
too-small error. -/
theorem from_buf_too_small (buf : List Nat) (h : buf.length < 12) :
    Header.from_buf buf = some (Except.error HeaderTooSmall) := by
  unfold Header.from_buf
  rw [if_pos h]
  rfl

/-- A remaining buffer too short for the declared CSRC count makes the
header parser return the insufficient-CSRC error. -/
theorem from_buf_csrc_err (b0 b1 b2 b3 b4 b5 b6 b7 b8 b9 b10 b11 : Nat)
    (rest : List Nat)
    (h : rest.length < (HeaderInfo.mk (b0 * 256 + b1)).csrc_count * 4) :
    Header.from_buf
        (b0 :: b1 :: b2 :: b3 :: b4 :: b5 :: b6 :: b7 :: b8 :: b9 :: b10 :: b11 :: rest) =
      some (Except.error InsufficientCsrcData) := by
  rw [from_buf_cons12, if_pos h]

/-- With room for the CSRC list and the extension flag clear, the header
parser succeeds with no extension and the CSRC words read in order. -/
theorem from_buf_ok_noext (b0 b1 b2 b3 b4 b5 b6 b7 b8 b9 b10 b11 : Nat)
    (rest : List Nat)
    (hc : (HeaderInfo.mk (b0 * 256 + b1)).csrc_count * 4 ≤ rest.length)
    (hx : (HeaderInfo.mk (b0 * 256 + b1)).has_extension = false) :
    ∃ ws, readWords (HeaderInfo.mk (b0 * 256 + b1)).csrc_count rest =
        some (ws, rest.drop ((HeaderInfo.mk (b0 * 256 + b1)).csrc_count * 4)) ∧
      ws.length = (HeaderInfo.mk (b0 * 256 + b1)).csrc_count ∧
      Header.from_buf
          (b0 :: b1 :: b2 :: b3 :: b4 :: b5 :: b6 :: b7 :: b8 :: b9 :: b10 :: b11 :: rest) =
        some (Except.ok
          { info := HeaderInfo.mk (b0 * 256 + b1),
            sequence := b2 * 256 + b3,
            timestamp := b4 * 16777216 + b5 * 65536 + b6 * 256 + b7,
            ssrc_identifier := b8 * 16777216 + b9 * 65536 + b10 * 256 + b11,
            csrc_identifiers := ⟨ws⟩,
            extension := none }) := by
  obtain ⟨ws, hws, hlen⟩ := readWords_eq _ rest hc
  refine ⟨ws, hws, hlen, ?_⟩
  rw [from_buf_cons12, if_neg (by omega), hws, hx]
  simp

/-- With room for the CSRC list and the extension flag set, the header
parser reads the CSRC words and then behaves exactly as the extension
parser on the remaining buffer, propagating its error unchanged. -/
theorem from_buf_ext_delegate (b0 b1 b2 b3 b4 b5 b6 b7 b8 b9 b10 b11 : Nat)
    (rest : List Nat)
    (hc : (HeaderInfo.mk (b0 * 256 + b1)).csrc_count * 4 ≤ rest.length)
    (hx : (HeaderInfo.mk (b0 * 256 + b1)).has_extension = true) :
    ∃ ws, readWords (HeaderInfo.mk (b0 * 256 + b1)).csrc_count rest =
        some (ws, rest.drop ((HeaderInfo.mk (b0 * 256 + b1)).csrc_count * 4)) ∧
      ws.length = (HeaderInfo.mk (b0 * 256 + b1)).csrc_count ∧
      Header.from_buf
          (b0 :: b1 :: b2 :: b3 :: b4 :: b5 :: b6 :: b7 :: b8 :: b9 :: b10 :: b11 :: rest) =
        (match HeaderExtension.from_buf
            (rest.drop ((HeaderInfo.mk (b0 * 256 + b1)).csrc_count * 4)) with
         | none => none
         | some (Except.error e) => some (Except.error e)
         | some (Except.ok ext) =>
           some (Except.ok
             { info := HeaderInfo.mk (b0 * 256 + b1),
               sequence := b2 * 256 + b3,
               timestamp := b4 * 16777216 + b5 * 65536 + b6 * 256 + b7,
               ssrc_identifier := b8 * 16777216 + b9 * 65536 + b10 * 256 + b11,
               csrc_identifiers := ⟨ws⟩,
               extension := some ext })) := by
  obtain ⟨ws, hws, hlen⟩ := readWords_eq _ rest hc
  refine ⟨ws, hws, hlen, ?_⟩
  rw [from_buf_cons12, if_neg (by omega), hws, hx]
  simp

/-- The header parser never reads out of bounds. -/
theorem from_buf_isSome (buf : List Nat) : (Header.from_buf buf).isSome := by
  by_cases h12 : buf.length < 12
  · rw [from_buf_too_small buf h12]
    rfl
  · obtain ⟨b0, b1, b2, b3, b4, b5, b6, b7, b8, b9, b10, b11, rest, rfl⟩ :=
      exists_cons12 buf (by omega)
    by_cases hc : rest.length < (HeaderInfo.mk (b0 * 256 + b1)).csrc_count * 4
    · rw [from_buf_csrc_err b0 b1 b2 b3 b4 b5 b6 b7 b8 b9 b10 b11 rest hc]
      rfl
    · by_cases hx : (HeaderInfo.mk (b0 * 256 + b1)).has_extension
      · obtain ⟨ws, _, _, heq⟩ :=
          from_buf_ext_delegate b0 b1 b2 b3 b4 b5 b6 b7 b8 b9 b10 b11 rest
            (by omega) hx
        rw [heq]
        have hsome := ext_from_buf_isSome
          (rest.drop ((HeaderInfo.mk (b0 * 256 + b1)).csrc_count * 4))
        cases hE : HeaderExtension.from_buf
            (rest.drop ((HeaderInfo.mk (b0 * 256 + b1)).csrc_count * 4)) with
        | none => rw [hE] at hsome; simp at hsome
        | some r =>
          cases r with
          | error e => simp [hE]
          | ok ext => simp [hE]
      · obtain ⟨ws, _, _, heq⟩ :=
          from_buf_ok_noext b0 b1 b2 b3 b4 b5 b6 b7 b8 b9 b10 b11 rest
            (by omega) (by simpa using hx)
        rw [heq]
        rfl

/-- Projection of the info-word wrapper. -/
theorem headerInfo_val_mk (v : Nat) : (HeaderInfo.mk v).val = v := rfl

/-- Claim C10: every byte read of both parsers is within bounds: the
out-of-bounds branch of the embedding (the outer `none`) is unreachable,
so both parsers always return a value or an error. -/
theorem rtp_C10_no_out_of_bounds_reads (buf : List Nat) :
    (Header.from_buf buf).isSome ∧ (HeaderExtension.from_buf buf).isSome :=
  ⟨from_buf_isSome buf, ext_from_buf_isSome buf⟩

/-- Claim C4: every buffer shorter than 12 bytes yields the HeaderTooSmall
error and no Header; in particular the 2-byte input [123, 123] does. -/
theorem rtp_C4_header_too_small (buf : List Nat) (h : buf.length < 12) :
    Header.from_buf buf = some (Except.error HeaderTooSmall) ∧
      Header.from_buf [123, 123] = some (Except.error HeaderTooSmall) :=
  ⟨from_buf_too_small buf h, from_buf_too_small [123, 123] (by simp)⟩

/-- Witness for C4 at the concrete 3-byte buffer [1, 2, 3]. -/
theorem rtp_C4_witness :
    ([1, 2, 3] : List Nat).length < 12 ∧
      (Header.from_buf [1, 2, 3] = some (Except.error HeaderTooSmall) ∧
        Header.from_buf [123, 123] = some (Except.error HeaderTooSmall)) :=
  ⟨by decide, rtp_C4_header_too_small [1, 2, 3] (by decide)⟩

/-- Claim C2: for every 16-bit value, the six HeaderInfo accessors equal
the documented shift-and-mask extractions of the layout
version(2) | padding(1) | extension(1) | csrc_count(4) | marker(1) |
payload_type(7), with the stated ranges; no 16-bit value is rejected
(the accessors are total). -/
theorem rtp_C2_header_info_accessors (v : Nat) (hv : v < 65536) :
    (HeaderInfo.mk v).version = (v >>> 14) &&& 3 ∧
      (HeaderInfo.mk v).version ≤ 3 ∧
      ((HeaderInfo.mk v).has_padding = true ↔ v.testBit 13 = true) ∧
      ((HeaderInfo.mk v).has_extension = true ↔ v.testBit 12 = true) ∧
      (HeaderInfo.mk v).csrc_count = (v >>> 8) &&& 15 ∧
      (HeaderInfo.mk v).csrc_count ≤ 15 ∧
      ((HeaderInfo.mk v).has_marker = true ↔ v.testBit 7 = true) ∧
      (HeaderInfo.mk v).payload_type = v &&& 127 ∧
      (HeaderInfo.mk v).payload_type ≤ 127 := by
  have h14 : (2 : Nat) ^ 14 = 16384 := by norm_num
  have h13 : (2 : Nat) ^ 13 = 8192 := by norm_num
  have h12 : (2 : Nat) ^ 12 = 4096 := by norm_num
  have h8 : (2 : Nat) ^ 8 = 256 := by norm_num
  have h7 : (2 : Nat) ^ 7 = 128 := by norm_num
  refine ⟨?_, ?_, ?_, ?_, ?_, ?_, ?_, ?_, ?_⟩
  · rw [version_eq_div, headerInfo_val_mk, Nat.shiftRight_eq_div_pow,
      and_three_eq_mod, h14]
    omega
  · rw [version_eq_div, headerInfo_val_mk]
    omega
  · rw [has_padding_iff, headerInfo_val_mk, Nat.testBit_to_div_mod, h13]
    simp
  · rw [has_extension_iff, headerInfo_val_mk, Nat.testBit_to_div_mod, h12]
    simp
  · rw [csrc_count_eq_div, headerInfo_val_mk, Nat.shiftRight_eq_div_pow,
      and_fifteen_eq_mod, h8]
  · rw [csrc_count_eq_div, headerInfo_val_mk]
    omega
  · rw [has_marker_iff, headerInfo_val_mk, Nat.testBit_to_div_mod, h7]
    simp
  · rw [payload_type_eq_mod, headerInfo_val_mk, and_127_eq_mod]
  · rw [payload_type_eq_mod, headerInfo_val_mk]
    omega

/-- Witness for C2 at the concrete info word 43690 (0b1010101010101010). -/
theorem rtp_C2_witness :
    (43690 : Nat) < 65536 ∧
      ((HeaderInfo.mk 43690).version = (43690 >>> 14) &&& 3 ∧
        (HeaderInfo.mk 43690).version ≤ 3 ∧
        ((HeaderInfo.mk 43690).has_padding = true ↔
          Nat.testBit 43690 13 = true) ∧
        ((HeaderInfo.mk 43690).has_extension = true ↔
          Nat.testBit 43690 12 = true) ∧
        (HeaderInfo.mk 43690).csrc_count = (43690 >>> 8) &&& 15 ∧
        (HeaderInfo.mk 43690).csrc_count ≤ 15 ∧
        ((HeaderInfo.mk 43690).has_marker = true ↔
          Nat.testBit 43690 7 = true) ∧
        (HeaderInfo.mk 43690).payload_type = 43690 &&& 127 ∧
        (HeaderInfo.mk 43690).payload_type ≤ 127) :=
  ⟨by decide, rtp_C2_header_info_accessors 43690 (by decide)⟩

/-- Claim C5: every buffer of length at least 12 whose info word declares
a CSRC count needing more bytes than remain after the fixed 12-byte
section yields the InsufficientCsrcData error and no Header. -/
theorem rtp_C5_insufficient_csrc (b0 b1 b2 b3 b4 b5 b6 b7 b8 b9 b10 b11 : Nat)
    (rest : List Nat)
    (h : rest.length < (HeaderInfo.mk (b0 * 256 + b1)).csrc_count * 4) :
    Header.from_buf
        (b0 :: b1 :: b2 :: b3 :: b4 :: b5 :: b6 :: b7 :: b8 :: b9 :: b10 :: b11 :: rest) =
      some (Except.error InsufficientCsrcData) :=
  from_buf_csrc_err b0 b1 b2 b3 b4 b5 b6 b7 b8 b9 b10 b11 rest h

/-- Witness for C5 at a 12-byte buffer declaring one CSRC identifier. -/
theorem rtp_C5_witness :
    ([] : List Nat).length < (HeaderInfo.mk (1 * 256 + 0)).csrc_count * 4 ∧
      Header.from_buf [1, 0, 0, 0, 0, 0, 0, 0, 0, 0, 0, 0] =
        some (Except.error InsufficientCsrcData) :=
  ⟨by decide, rtp_C5_insufficient_csrc 1 0 0 0 0 0 0 0 0 0 0 0 [] (by decide)⟩

/-- Claim C6: a buffer with the extension flag set that passes the fixed
and CSRC length checks but has fewer than 4 bytes after the CSRC list
yields the ExtensionHeaderMissing error, equal to what the extension
parser itself returns on the remaining buffer (propagated unchanged). -/
theorem rtp_C6_extension_header_missing
    (b0 b1 b2 b3 b4 b5 b6 b7 b8 b9 b10 b11 : Nat) (rest : List Nat)
    (hc : (HeaderInfo.mk (b0 * 256 + b1)).csrc_count * 4 ≤ rest.length)
    (hx : (HeaderInfo.mk (b0 * 256 + b1)).has_extension = true)
    (h4 : (rest.drop ((HeaderInfo.mk (b0 * 256 + b1)).csrc_count * 4)).length < 4) :
    Header.from_buf
        (b0 :: b1 :: b2 :: b3 :: b4 :: b5 :: b6 :: b7 :: b8 :: b9 :: b10 :: b11 :: rest) =
      some (Except.error ExtensionHeaderMissing) ∧
      HeaderExtension.from_buf
          (rest.drop ((HeaderInfo.mk (b0 * 256 + b1)).csrc_count * 4)) =
        some (Except.error ExtensionHeaderMissing) := by
  have hext := ext_too_small _ h4
  obtain ⟨ws, _, _, heq⟩ :=
    from_buf_ext_delegate b0 b1 b2 b3 b4 b5 b6 b7 b8 b9 b10 b11 rest hc hx
  constructor
  · rw [heq, hext]
  · exact hext

/-- Witness for C6 at a 12-byte buffer with the extension flag set and
nothing after the fixed section. -/
theorem rtp_C6_witness :
    (HeaderInfo.mk (16 * 256 + 0)).csrc_count * 4 ≤ ([] : List Nat).length ∧
      (HeaderInfo.mk (16 * 256 + 0)).has_extension = true ∧
      (([] : List Nat).drop ((HeaderInfo.mk (16 * 256 + 0)).csrc_count * 4)).length < 4 ∧
      (Header.from_buf [16, 0, 0, 0, 0, 0, 0, 0, 0, 0, 0, 0] =
          some (Except.error ExtensionHeaderMissing) ∧
        HeaderExtension.from_buf
            (([] : List Nat).drop ((HeaderInfo.mk (16 * 256 + 0)).csrc_count * 4)) =
          some (Except.error ExtensionHeaderMissing)) :=
  ⟨by decide, by decide, by decide,
    rtp_C6_extension_header_missing 16 0 0 0 0 0 0 0 0 0 0 0 []
      (by decide) (by decide) (by decide)⟩

/-- Claim C3: every Header produced by the parser satisfies the declared
invariants: the CSRC list length equals the declared csrc_count, the
extension is present exactly when the extension flag is set, and any
extension's data length equals its declared word count (also for
extensions parsed directly); the parsers return either an error or a
fully constructed value, never a partial one. -/
theorem rtp_C3_header_invariants (buf : List Nat) (hdr : Header)
    (h : Header.from_buf buf = some (Except.ok hdr)) :
    hdr.csrc_identifiers.identifiers.length = hdr.info.csrc_count ∧
      (hdr.extension.isSome ↔ hdr.info.has_extension = true) ∧
      (∀ e, hdr.extension = some e → e.extension.length = e.ehl) ∧
      (∀ ebuf e, HeaderExtension.from_buf ebuf = some (Except.ok e) →
        e.extension.length = e.ehl) := by
  have hlast : ∀ ebuf e, HeaderExtension.from_buf ebuf = some (Except.ok e) →
      e.extension.length = e.ehl :=
    fun ebuf e hE => (ext_ok_inv ebuf e hE).1
  by_cases h12 : buf.length < 12
  · rw [from_buf_too_small buf h12] at h
    simp at h
  obtain ⟨b0, b1, b2, b3, b4, b5, b6, b7, b8, b9, b10, b11, rest, rfl⟩ :=
    exists_cons12 buf (by omega)
  by_cases hc : rest.length < (HeaderInfo.mk (b0 * 256 + b1)).csrc_count * 4
  · rw [from_buf_csrc_err b0 b1 b2 b3 b4 b5 b6 b7 b8 b9 b10 b11 rest hc] at h
    simp at h
  by_cases hx : (HeaderInfo.mk (b0 * 256 + b1)).has_extension
  · obtain ⟨ws, hws, hwl, heq⟩ :=
      from_buf_ext_delegate b0 b1 b2 b3 b4 b5 b6 b7 b8 b9 b10 b11 rest
        (by omega) hx
    rw [heq] at h
    cases hE : HeaderExtension.from_buf
        (rest.drop ((HeaderInfo.mk (b0 * 256 + b1)).csrc_count * 4)) with
    | none => rw [hE] at h; simp at h
    | some r =>
      rw [hE] at h
      cases r with
      | error e => simp at h
      | ok ext =>
        simp only [Option.some.injEq, Except.ok.injEq] at h
        subst h
        refine ⟨hwl, by simp [hx], ?_, hlast⟩
        intro e he
        simp only [Option.some.injEq] at he
        subst he
        exact (ext_ok_inv _ _ hE).1
  · obtain ⟨ws, hws, hwl, heq⟩ :=
      from_buf_ok_noext b0 b1 b2 b3 b4 b5 b6 b7 b8 b9 b10 b11 rest
        (by omega) (by simpa using hx)
    rw [heq] at h
    simp only [Option.some.injEq, Except.ok.injEq] at h
    subst h
    refine ⟨hwl, by simpa using hx, ?_, hlast⟩
    intro e he
    simp at he

/-- Witness for C3 at the all-zero 12-byte buffer. -/
theorem rtp_C3_witness :
    Header.from_buf [0, 0, 0, 0, 0, 0, 0, 0, 0, 0, 0, 0] =
        some (Except.ok (⟨⟨0⟩, 0, 0, 0, ⟨[]⟩, none⟩ : Header)) ∧
      ((⟨⟨0⟩, 0, 0, 0, ⟨[]⟩, none⟩ : Header).csrc_identifiers.identifiers.length =
          (⟨⟨0⟩, 0, 0, 0, ⟨[]⟩, none⟩ : Header).info.csrc_count ∧
        ((⟨⟨0⟩, 0, 0, 0, ⟨[]⟩, none⟩ : Header).extension.isSome ↔
          (⟨⟨0⟩, 0, 0, 0, ⟨[]⟩, none⟩ : Header).info.has_extension = true) ∧
        (∀ e, (⟨⟨0⟩, 0, 0, 0, ⟨[]⟩, none⟩ : Header).extension = some e →
          e.extension.length = e.ehl) ∧
        (∀ ebuf e, HeaderExtension.from_buf ebuf = some (Except.ok e) →
          e.extension.length = e.ehl)) :=
  ⟨by rfl,
    rtp_C3_header_invariants [0, 0, 0, 0, 0, 0, 0, 0, 0, 0, 0, 0]
      ⟨⟨0⟩, 0, 0, 0, ⟨[]⟩, none⟩ (by rfl)⟩

/-- Claim C7: with the extension flag set and all earlier checks passed,
a declared extension word count needing more bytes than remain yields the
InsufficientExtensionData error, while a declared count of zero succeeds
with an empty extension-data sequence. -/
theorem rtp_C7_extension_data_checks
    (b0 b1 b2 b3 b4 b5 b6 b7 b8 b9 b10 b11 e0 e1 e2 e3 : Nat)
    (csrcPart tail : List Nat)
    (hcsrc : csrcPart.length = (HeaderInfo.mk (b0 * 256 + b1)).csrc_count * 4)
    (hx : (HeaderInfo.mk (b0 * 256 + b1)).has_extension = true) :
    (tail.length < (e2 * 256 + e3) * 4 →
      Header.from_buf
          (b0 :: b1 :: b2 :: b3 :: b4 :: b5 :: b6 :: b7 :: b8 :: b9 :: b10 :: b11 ::
            (csrcPart ++ e0 :: e1 :: e2 :: e3 :: tail)) =
        some (Except.error InsufficientExtensionData)) ∧
    (e2 = 0 → e3 = 0 →
      ∃ hdr, Header.from_buf
            (b0 :: b1 :: b2 :: b3 :: b4 :: b5 :: b6 :: b7 :: b8 :: b9 :: b10 :: b11 ::
              (csrcPart ++ e0 :: e1 :: e2 :: e3 :: tail)) =
          some (Except.ok hdr) ∧
        hdr.extension = some ⟨e0 * 256 + e1, 0, []⟩) := by
  have hc : (HeaderInfo.mk (b0 * 256 + b1)).csrc_count * 4 ≤
      (csrcPart ++ e0 :: e1 :: e2 :: e3 :: tail).length := by
    simp [List.length_append]
    omega
  obtain ⟨ws, hws, hwl, heq⟩ :=
    from_buf_ext_delegate b0 b1 b2 b3 b4 b5 b6 b7 b8 b9 b10 b11
      (csrcPart ++ e0 :: e1 :: e2 :: e3 :: tail) hc hx
  have hdrop : (csrcPart ++ e0 :: e1 :: e2 :: e3 :: tail).drop
      ((HeaderInfo.mk (b0 * 256 + b1)).csrc_count * 4) =
      e0 :: e1 :: e2 :: e3 :: tail := by
    rw [← hcsrc]
    exact List.drop_left csrcPart _
  constructor
  · intro hlt
    rw [heq, hdrop, ext_err_insufficient e0 e1 e2 e3 tail hlt]
  · intro he2 he3
    subst he2
    subst he3
    obtain ⟨ws2, hws2, hwl2, hok⟩ := ext_ok_char e0 e1 0 0 tail (by simp)
    have hws2nil : ws2 = [] := by
      rw [← List.length_eq_zero]
      simpa using hwl2
    subst hws2nil
    refine ⟨⟨⟨b0 * 256 + b1⟩, b2 * 256 + b3,
      b4 * 16777216 + b5 * 65536 + b6 * 256 + b7,
      b8 * 16777216 + b9 * 65536 + b10 * 256 + b11, ⟨ws⟩,
      some ⟨e0 * 256 + e1, 0 * 256 + 0, []⟩⟩, ?_, ?_⟩
    · rw [heq, hdrop, hok]
    · rfl

/-- Witness for C7: extension flag set, zero CSRCs, declared extension
word count 1 with no trailing bytes. -/
theorem rtp_C7_witness :
    ([] : List Nat).length = (HeaderInfo.mk (16 * 256 + 0)).csrc_count * 4 ∧
      (HeaderInfo.mk (16 * 256 + 0)).has_extension = true ∧
      ((([] : List Nat).length < (0 * 256 + 1) * 4 →
        Header.from_buf
            (16 :: 0 :: 0 :: 0 :: 0 :: 0 :: 0 :: 0 :: 0 :: 0 :: 0 :: 0 ::
              (([] : List Nat) ++ 0 :: 5 :: 0 :: 1 :: [])) =
          some (Except.error InsufficientExtensionData)) ∧
      ((0 : Nat) = 0 → (1 : Nat) = 0 →
        ∃ hdr, Header.from_buf
              (16 :: 0 :: 0 :: 0 :: 0 :: 0 :: 0 :: 0 :: 0 :: 0 :: 0 :: 0 ::
                (([] : List Nat) ++ 0 :: 5 :: 0 :: 1 :: [])) =
            some (Except.ok hdr) ∧
          hdr.extension = some ⟨0 * 256 + 5, 0, []⟩)) :=
  ⟨by decide, by decide,
    rtp_C7_extension_data_checks 16 0 0 0 0 0 0 0 0 0 0 0 0 5 0 1 [] []
      (by decide) (by decide)⟩

/-- Big-endian byte serialization of a 16-bit value, per the §6 wire
format, used to synthesize buffers for the round-trip claim. -/
def u16_bytes (v : Nat) : List Nat :=
  [v / 256 % 256, v % 256]

/-- Big-endian byte serialization of a 32-bit value, per the §6 wire
format. -/
def u32_bytes (v : Nat) : List Nat :=
  [v / 16777216 % 256, v / 65536 % 256, v / 256 % 256, v % 256]

/-- Serialization of a sequence of 32-bit words, in order, per the §6
wire format. -/
def encodeWords : List Nat → List Nat
  | [] => []
  | w :: ws => u32_bytes w ++ encodeWords ws

/-- Packing of the six info sub-fields into the 16-bit info word, per the
§6 bit layout (MSB to LSB: version 2, padding 1, extension 1, csrc_count
4, marker 1, payload_type 7). -/
def mk_info (ver pad xf cc mark pt : Nat) : Nat :=
  ver * 16384 + pad * 8192 + xf * 4096 + cc * 256 + mark * 128 + pt

/-- A buffer synthesized by writing all header fields per the §6 wire
format: info word, sequence, timestamp, SSRC, the CSRC words in order,
and, when present, the extension id, word count, and words in order. -/
def encodeHeaderBuf (ver pad xf cc mark pt seq ts ssrc : Nat)
    (csrcs : List Nat) (ext : Option (Nat × List Nat)) : List Nat :=
  u16_bytes (mk_info ver pad xf cc mark pt) ++ u16_bytes seq ++
    u32_bytes ts ++ u32_bytes ssrc ++ encodeWords csrcs ++
    (match ext with
     | none => []
     | some (eid, ws) => u16_bytes eid ++ u16_bytes ws.length ++ encodeWords ws)

/-- Serializing a word list yields four bytes per word. -/
theorem encodeWords_length (ws : List Nat) :
    (encodeWords ws).length = 4 * ws.length := by
  induction ws with
  | nil => rfl
  | cons w ws ih =>
    simp only [encodeWords, u32_bytes, List.length_append, List.length_cons,
      List.length_nil, ih]
    omega

/-- Reading back as many words as were serialized recovers the original
word list and leaves exactly the trailing buffer. -/
theorem readWords_encode (ws rest : List Nat)
    (hw : ∀ w ∈ ws, w < 4294967296) :
    readWords ws.length (encodeWords ws ++ rest) = some (ws, rest) := by
  induction ws with
  | nil => rfl
  | cons w ws ih =>
    have hw0 : w < 4294967296 := hw w (List.mem_cons_self w ws)
    have hcomb : w / 16777216 % 256 * 16777216 + w / 65536 % 256 * 65536 +
        w / 256 % 256 * 256 + w % 256 = w := by omega
    have hbuf : encodeWords (w :: ws) ++ rest =
        w / 16777216 % 256 :: w / 65536 % 256 :: w / 256 % 256 :: w % 256 ::
          (encodeWords ws ++ rest) := rfl
    rw [List.length_cons, hbuf]
    show (match read_u32 (w / 16777216 % 256 :: w / 65536 % 256 ::
        w / 256 % 256 :: w % 256 :: (encodeWords ws ++ rest)) with
      | none => none
      | some wv =>
        match readWords ws.length ((w / 16777216 % 256 :: w / 65536 % 256 ::
            w / 256 % 256 :: w % 256 :: (encodeWords ws ++ rest)).drop 4) with
        | none => none
        | some (ws2, r) => some (wv :: ws2, r)) = some (w :: ws, rest)
    rw [show (w / 16777216 % 256 :: w / 65536 % 256 :: w / 256 % 256 ::
        w % 256 :: (encodeWords ws ++ rest)).drop 4 = encodeWords ws ++ rest
      from rfl]
    rw [ih (fun x hx => hw x (List.mem_cons_of_mem _ hx))]
    simp only [read_u32, hcomb]

/-- Parsing a buffer whose fixed 96-bit section was serialized from
in-range values recovers those values and continues on the tail. -/
theorem from_buf_split (v seq ts ssrc : Nat) (hv : v < 65536)
    (hseq : seq < 65536) (hts : ts < 4294967296) (hssrc : ssrc < 4294967296)
    (tail : List Nat) :
    Header.from_buf
        (u16_bytes v ++ u16_bytes seq ++ u32_bytes ts ++ u32_bytes ssrc ++ tail) =
      (if tail.length < (HeaderInfo.mk v).csrc_count * 4 then
        some (Except.error InsufficientCsrcData)
      else
        match readWords (HeaderInfo.mk v).csrc_count tail with
        | none => none
        | some (csrc_data, buf5) =>
          if (HeaderInfo.mk v).has_extension then
            match HeaderExtension.from_buf buf5 with
            | none => none
            | some (Except.error e) => some (Except.error e)
            | some (Except.ok ext) =>
              some (Except.ok ⟨⟨v⟩, seq, ts, ssrc, ⟨csrc_data⟩, some ext⟩)
          else
            some (Except.ok ⟨⟨v⟩, seq, ts, ssrc, ⟨csrc_data⟩, none⟩)) := by
  have h01 : v / 256 % 256 * 256 + v % 256 = v := by omega
  have h23 : seq / 256 % 256 * 256 + seq % 256 = seq := by omega
  have hts4 : ts / 16777216 % 256 * 16777216 + ts / 65536 % 256 * 65536 +
      ts / 256 % 256 * 256 + ts % 256 = ts := by omega
  have hssrc4 : ssrc / 16777216 % 256 * 16777216 +
      ssrc / 65536 % 256 * 65536 + ssrc / 256 % 256 * 256 + ssrc % 256 =
      ssrc := by omega
  have hbuf : u16_bytes v ++ u16_bytes seq ++ u32_bytes ts ++
      u32_bytes ssrc ++ tail =
      v / 256 % 256 :: v % 256 :: seq / 256 % 256 :: seq % 256 ::
        ts / 16777216 % 256 :: ts / 65536 % 256 :: ts / 256 % 256 ::
        ts % 256 :: ssrc / 16777216 % 256 :: ssrc / 65536 % 256 ::
        ssrc / 256 % 256 :: ssrc % 256 :: tail := rfl
  rw [hbuf, from_buf_cons12, h01, h23, hts4, hssrc4]

/-- A boolean flag characterized by a bit equal to a value below 2 equals
the test of that value against 1. -/
theorem bool_flag_eq (flag : Bool) (b : Nat) (hb : b < 2)
    (hiff : flag = true ↔ b = 1) : flag = (b == 1) := by
  rcases (show b = 0 ∨ b = 1 by omega) with h | h <;> subst h
  · cases hflag : flag with
    | false => rfl
    | true => exact absurd (hiff.mp hflag) (by omega)
  · cases hflag : flag with
    | false =>
      have := hiff.mpr rfl
      rw [hflag] at this
      exact absurd this (by simp)
    | true => rfl

/-- Claim C1: parsing a buffer synthesized per the §6 wire format from
in-range field values recovers exactly those values: all six info
sub-fields, sequence, timestamp, SSRC, the CSRC list in order, and the
extension contents in order (present exactly when the extension bit was
written). -/
theorem rtp_C1_round_trip
    (ver pad xf cc mark pt seq ts ssrc : Nat) (csrcs : List Nat)
    (ext : Option (Nat × List Nat))
    (hver : ver < 4) (hpad : pad < 2) (hxf : xf < 2) (hcc : cc < 16)
    (hmark : mark < 2) (hpt : pt < 128) (hseq : seq < 65536)
    (hts : ts < 4294967296) (hssrc : ssrc < 4294967296)
    (hlen : csrcs.length = cc) (hcw : ∀ w ∈ csrcs, w < 4294967296)
    (hxext : xf = 1 ↔ ext.isSome)
    (hextb : ∀ eid ws, ext = some (eid, ws) →
      eid < 65536 ∧ ws.length < 65536 ∧ ∀ w ∈ ws, w < 4294967296) :
    Header.from_buf (encodeHeaderBuf ver pad xf cc mark pt seq ts ssrc csrcs ext) =
        some (Except.ok
          ⟨⟨mk_info ver pad xf cc mark pt⟩, seq, ts, ssrc, ⟨csrcs⟩,
            ext.map (fun p => ⟨p.1, p.2.length, p.2⟩)⟩) ∧
      (HeaderInfo.mk (mk_info ver pad xf cc mark pt)).version = ver ∧
      (HeaderInfo.mk (mk_info ver pad xf cc mark pt)).has_padding = (pad == 1) ∧
      (HeaderInfo.mk (mk_info ver pad xf cc mark pt)).has_extension = (xf == 1) ∧
      (HeaderInfo.mk (mk_info ver pad xf cc mark pt)).csrc_count = cc ∧
      (HeaderInfo.mk (mk_info ver pad xf cc mark pt)).has_marker = (mark == 1) ∧
      (HeaderInfo.mk (mk_info ver pad xf cc mark pt)).payload_type = pt := by
  have hv : mk_info ver pad xf cc mark pt < 65536 := by
    simp only [mk_info]
    omega
  have hversion : (HeaderInfo.mk (mk_info ver pad xf cc mark pt)).version = ver := by
    rw [version_eq_div, headerInfo_val_mk]
    simp only [mk_info]
    omega
  have hccacc : (HeaderInfo.mk (mk_info ver pad xf cc mark pt)).csrc_count = cc := by
    rw [csrc_count_eq_div, headerInfo_val_mk]
    simp only [mk_info]
    omega
  have hptacc : (HeaderInfo.mk (mk_info ver pad xf cc mark pt)).payload_type = pt := by
    rw [payload_type_eq_mod, headerInfo_val_mk]
    simp only [mk_info]
    omega
  have hpadacc : (HeaderInfo.mk (mk_info ver pad xf cc mark pt)).has_padding =
      (pad == 1) := by
    refine bool_flag_eq _ pad hpad ?_
    rw [has_padding_iff, headerInfo_val_mk]
    simp only [mk_info]
    omega
  have hxacc : (HeaderInfo.mk (mk_info ver pad xf cc mark pt)).has_extension =
      (xf == 1) := by
    refine bool_flag_eq _ xf hxf ?_
    rw [has_extension_iff, headerInfo_val_mk]
    simp only [mk_info]
    omega
  have hmarkacc : (HeaderInfo.mk (mk_info ver pad xf cc mark pt)).has_marker =
      (mark == 1) := by
    refine bool_flag_eq _ mark hmark ?_
    rw [has_marker_iff, headerInfo_val_mk]
    simp only [mk_info]
    omega
  refine ⟨?_, hversion, hpadacc, hxacc, hccacc, hmarkacc, hptacc⟩
  rcases ext with _ | ⟨eid, ws⟩
  · have hxf0 : xf = 0 := by
      rcases (show xf = 0 ∨ xf = 1 by omega) with h | h
      · exact h
      · simpa using hxext.mp h
    subst hxf0
    have hbuf : encodeHeaderBuf ver pad 0 cc mark pt seq ts ssrc csrcs none =
        u16_bytes (mk_info ver pad 0 cc mark pt) ++ u16_bytes seq ++
          u32_bytes ts ++ u32_bytes ssrc ++ (encodeWords csrcs ++ []) := by
      simp [encodeHeaderBuf, List.append_assoc]
    rw [hbuf, from_buf_split _ seq ts ssrc hv hseq hts hssrc, hccacc]
    rw [if_neg (by
      simp only [List.length_append, List.length_nil, encodeWords_length, hlen]
      omega)]
    rw [show readWords cc (encodeWords csrcs ++ []) = some (csrcs, []) from by
      rw [← hlen]
      exact readWords_encode csrcs [] hcw]
    rw [hxacc]
    simp
  · have hxf1 : xf = 1 := by
      rcases (show xf = 0 ∨ xf = 1 by omega) with h | h
      · exact absurd (hxext.mpr (by simp)) (by omega)
      · exact h
    subst hxf1
    obtain ⟨heid, hwsl, hws⟩ := hextb eid ws rfl
    have hbuf : encodeHeaderBuf ver pad 1 cc mark pt seq ts ssrc csrcs
        (some (eid, ws)) =
        u16_bytes (mk_info ver pad 1 cc mark pt) ++ u16_bytes seq ++
          u32_bytes ts ++ u32_bytes ssrc ++
          (encodeWords csrcs ++
            (u16_bytes eid ++ u16_bytes ws.length ++ encodeWords ws)) := by
      simp [encodeHeaderBuf, List.append_assoc]
    rw [hbuf, from_buf_split _ seq ts ssrc hv hseq hts hssrc, hccacc]
    rw [if_neg (by
      simp only [List.length_append, encodeWords_length, hlen, u16_bytes,
        List.length_cons, List.length_nil]
      omega)]
    rw [show readWords cc (encodeWords csrcs ++
        (u16_bytes eid ++ u16_bytes ws.length ++ encodeWords ws)) =
        some (csrcs, u16_bytes eid ++ u16_bytes ws.length ++ encodeWords ws) from by
      rw [← hlen]
      exact readWords_encode csrcs _ hcw]
    rw [hxacc]
    have hextcons : u16_bytes eid ++ u16_bytes ws.length ++ encodeWords ws =
        eid / 256 % 256 :: eid % 256 :: ws.length / 256 % 256 ::
          ws.length % 256 :: encodeWords ws := rfl
    have he01 : eid / 256 % 256 * 256 + eid % 256 = eid := by omega
    have he23 : ws.length / 256 % 256 * 256 + ws.length % 256 = ws.length := by
      omega
    have hre : readWords ws.length (encodeWords ws) = some (ws, []) := by
      have := readWords_encode ws [] hws
      rwa [List.append_nil] at this
    rw [hextcons]
    have hextval : HeaderExtension.from_buf
        (eid / 256 % 256 :: eid % 256 :: ws.length / 256 % 256 ::
          ws.length % 256 :: encodeWords ws) =
        some (Except.ok ⟨eid, ws.length, ws⟩) := by
      rw [ext_from_buf_cons, he01, he23]
      rw [if_neg (by
        simp only [encodeWords_length]
        omega)]
      rw [hre]
    simp [hextval]

/-- Witness for C1: a synthesized packet with version 2, one CSRC and a
one-word extension parses back to exactly the written values. -/
theorem rtp_C1_witness :
    (2 : Nat) < 4 ∧ (0 : Nat) < 2 ∧ (1 : Nat) < 2 ∧ (1 : Nat) < 16 ∧
      (1 : Nat) < 2 ∧ (96 : Nat) < 128 ∧ (4660 : Nat) < 65536 ∧
      (1 : Nat) < 4294967296 ∧ (2 : Nat) < 4294967296 ∧
      ([7] : List Nat).length = 1 ∧
      (∀ w ∈ ([7] : List Nat), w < 4294967296) ∧
      ((1 : Nat) = 1 ↔
        ((some (3, [9]) : Option (Nat × List Nat))).isSome = true) ∧
      (∀ eid ws,
        (some (3, [9]) : Option (Nat × List Nat)) = some (eid, ws) →
          eid < 65536 ∧ ws.length < 65536 ∧ ∀ w ∈ ws, w < 4294967296) ∧
      (Header.from_buf
          (encodeHeaderBuf 2 0 1 1 1 96 4660 1 2 [7] (some (3, [9]))) =
          some (Except.ok
            ⟨⟨mk_info 2 0 1 1 1 96⟩, 4660, 1, 2, ⟨[7]⟩,
              Option.map (fun p => ⟨p.1, p.2.length, p.2⟩)
                (some (3, [9]))⟩) ∧
        (HeaderInfo.mk (mk_info 2 0 1 1 1 96)).version = 2 ∧
        (HeaderInfo.mk (mk_info 2 0 1 1 1 96)).has_padding = ((0 : Nat) == 1) ∧
        (HeaderInfo.mk (mk_info 2 0 1 1 1 96)).has_extension = ((1 : Nat) == 1) ∧
        (HeaderInfo.mk (mk_info 2 0 1 1 1 96)).csrc_count = 1 ∧
        (HeaderInfo.mk (mk_info 2 0 1 1 1 96)).has_marker = ((1 : Nat) == 1) ∧
        (HeaderInfo.mk (mk_info 2 0 1 1 1 96)).payload_type = 96) :=
  ⟨by decide, by decide, by decide, by decide, by decide, by decide,
    by decide, by decide, by decide, by decide, by decide, by decide,
    (by
      intro eid ws h
      simp only [Option.some.injEq, Prod.mk.injEq] at h
      obtain ⟨h1, h2⟩ := h
      subst h1
      subst h2
      exact ⟨by decide, by decide, by decide⟩),
    rtp_C1_round_trip 2 0 1 1 1 96 4660 1 2 [7] (some (3, [9]))
      (by decide) (by decide) (by decide) (by decide) (by decide)
      (by decide) (by decide) (by decide) (by decide) (by decide)
      (by decide) (by decide)
      (by
        intro eid ws h
        simp only [Option.some.injEq, Prod.mk.injEq] at h
        obtain ⟨h1, h2⟩ := h
        subst h1
        subst h2
        exact ⟨by decide, by decide, by decide⟩)⟩

/-- The info word a buffer declares: its first two bytes, big-endian (used
to state which lengths a buffer must meet). -/
def infoOf (buf : List Nat) : HeaderInfo :=
  ⟨buf.getD 0 0 * 256 + buf.getD 1 0⟩

/-- The part of a buffer handed to the extension parser: everything past
the fixed 12 bytes and the declared CSRC words. -/
def extBufOf (buf : List Nat) : List Nat :=
  buf.drop (12 + (infoOf buf).csrc_count * 4)

/-- The extension word count a buffer declares: bytes 2 and 3 of the
extension section, big-endian. -/
def ehlOf (ebuf : List Nat) : Nat :=
  ebuf.getD 2 0 * 256 + ebuf.getD 3 0

/-- A buffer meets all length requirements of the parser: the fixed 12
bytes, the declared CSRC words, and, when the extension flag is set, the
4 extension header bytes and the declared extension words. -/
def meetsLengthRequirements (buf : List Nat) : Prop :=
  12 ≤ buf.length ∧
    (infoOf buf).csrc_count * 4 ≤ buf.length - 12 ∧
    ((infoOf buf).has_extension = true →
      4 ≤ (extBufOf buf).length ∧
        ehlOf (extBufOf buf) * 4 ≤ (extBufOf buf).length - 4)

/-- Exhaustive, mutually exclusive case analysis of the header parser:
each of the four errors arises exactly under its length condition, and
every buffer meeting all length requirements parses successfully. -/
theorem from_buf_cases (buf : List Nat) :
    (buf.length < 12 ∧
      Header.from_buf buf = some (Except.error HeaderTooSmall)) ∨
    (12 ≤ buf.length ∧ buf.length - 12 < (infoOf buf).csrc_count * 4 ∧
      Header.from_buf buf = some (Except.error InsufficientCsrcData)) ∨
    (12 ≤ buf.length ∧ (infoOf buf).csrc_count * 4 ≤ buf.length - 12 ∧
      (infoOf buf).has_extension = true ∧ (extBufOf buf).length < 4 ∧
      Header.from_buf buf = some (Except.error ExtensionHeaderMissing)) ∨
    (12 ≤ buf.length ∧ (infoOf buf).csrc_count * 4 ≤ buf.length - 12 ∧
      (infoOf buf).has_extension = true ∧ 4 ≤ (extBufOf buf).length ∧
      (extBufOf buf).length - 4 < ehlOf (extBufOf buf) * 4 ∧
      Header.from_buf buf = some (Except.error InsufficientExtensionData)) ∨
    (meetsLengthRequirements buf ∧
      ∃ hdr, Header.from_buf buf = some (Except.ok hdr)) := by
  by_cases h12 : buf.length < 12
  · exact Or.inl ⟨h12, from_buf_too_small buf h12⟩
  obtain ⟨b0, b1, b2, b3, b4, b5, b6, b7, b8, b9, b10, b11, rest, rfl⟩ :=
    exists_cons12 buf (by omega)
  have hinfo : infoOf
      (b0 :: b1 :: b2 :: b3 :: b4 :: b5 :: b6 :: b7 :: b8 :: b9 :: b10 :: b11 :: rest) =
      HeaderInfo.mk (b0 * 256 + b1) := rfl
  have hlen : (b0 :: b1 :: b2 :: b3 :: b4 :: b5 :: b6 :: b7 :: b8 :: b9 :: b10 :: b11 :: rest).length =
      rest.length + 12 := by
    simp
  have hextbuf : extBufOf
      (b0 :: b1 :: b2 :: b3 :: b4 :: b5 :: b6 :: b7 :: b8 :: b9 :: b10 :: b11 :: rest) =
      rest.drop ((HeaderInfo.mk (b0 * 256 + b1)).csrc_count * 4) := by
    rw [extBufOf, hinfo, ← List.drop_drop]
    rfl
  by_cases hc : rest.length < (HeaderInfo.mk (b0 * 256 + b1)).csrc_count * 4
  · refine Or.inr (Or.inl ⟨by omega, ?_, ?_⟩)
    · rw [hinfo, hlen]
      omega
    · exact from_buf_csrc_err b0 b1 b2 b3 b4 b5 b6 b7 b8 b9 b10 b11 rest hc
  by_cases hx : (HeaderInfo.mk (b0 * 256 + b1)).has_extension
  · obtain ⟨ws, hws, hwl, heq⟩ :=
      from_buf_ext_delegate b0 b1 b2 b3 b4 b5 b6 b7 b8 b9 b10 b11 rest
        (by omega) hx
    by_cases h4 : (rest.drop ((HeaderInfo.mk (b0 * 256 + b1)).csrc_count * 4)).length < 4
    · refine Or.inr (Or.inr (Or.inl ⟨by omega, ?_, ?_, ?_, ?_⟩))
      · rw [hinfo, hlen]
        omega
      · rw [hinfo]
        exact hx
      · rw [hextbuf]
        exact h4
      · rw [heq, ext_too_small _ h4]
    · obtain ⟨e0, e1, e2, e3, tail, hsplit⟩ :=
        exists_cons4 (rest.drop ((HeaderInfo.mk (b0 * 256 + b1)).csrc_count * 4))
          (by omega)
      have hehl : ehlOf (extBufOf
          (b0 :: b1 :: b2 :: b3 :: b4 :: b5 :: b6 :: b7 :: b8 :: b9 :: b10 :: b11 :: rest)) =
          e2 * 256 + e3 := by
        rw [hextbuf, hsplit]
        rfl
      have hextlen : (extBufOf
          (b0 :: b1 :: b2 :: b3 :: b4 :: b5 :: b6 :: b7 :: b8 :: b9 :: b10 :: b11 :: rest)).length =
          tail.length + 4 := by
        rw [hextbuf, hsplit]
        simp
      by_cases hins : tail.length < (e2 * 256 + e3) * 4
      · refine Or.inr (Or.inr (Or.inr (Or.inl
          ⟨by omega, ?_, ?_, ?_, ?_, ?_⟩)))
        · rw [hinfo, hlen]
          omega
        · rw [hinfo]
          exact hx
        · rw [hextlen]
          omega
        · rw [hextlen, hehl]
          omega
        · rw [heq, hsplit, ext_err_insufficient e0 e1 e2 e3 tail hins]
      · obtain ⟨ws2, hws2, hwl2, hok⟩ := ext_ok_char e0 e1 e2 e3 tail (by omega)
        refine Or.inr (Or.inr (Or.inr (Or.inr ⟨⟨by omega, ?_, ?_⟩, ?_⟩)))
        · rw [hinfo, hlen]
          omega
        · intro hxx
          constructor
          · rw [hextlen]
            omega
          · rw [hextlen, hehl]
            omega
        · refine ⟨⟨HeaderInfo.mk (b0 * 256 + b1), b2 * 256 + b3,
            b4 * 16777216 + b5 * 65536 + b6 * 256 + b7,
            b8 * 16777216 + b9 * 65536 + b10 * 256 + b11, ⟨ws⟩,
            some ⟨e0 * 256 + e1, e2 * 256 + e3, ws2⟩⟩, ?_⟩
          rw [heq, hsplit, hok]
  · obtain ⟨ws, hws, hwl, heq⟩ :=
      from_buf_ok_noext b0 b1 b2 b3 b4 b5 b6 b7 b8 b9 b10 b11 rest
        (by omega) (by simpa using hx)
    refine Or.inr (Or.inr (Or.inr (Or.inr ⟨⟨by omega, ?_, ?_⟩, ?_⟩)))
    · rw [hinfo, hlen]
      omega
    · intro hxx
      rw [hinfo] at hxx
      exact absurd hxx (by simpa using hx)
    · exact ⟨_, heq⟩

/-- Claim C8: the parse error domain is closed with exactly the four
pairwise-distinguishable errors, each carrying a distinct human-readable
description and arising exactly under its stated length condition, and
every buffer meeting all length requirements parses successfully. -/
theorem rtp_C8_error_taxonomy :
    (HeaderTooSmall ≠ InsufficientCsrcData ∧
      HeaderTooSmall ≠ ExtensionHeaderMissing ∧
      HeaderTooSmall ≠ InsufficientExtensionData ∧
      InsufficientCsrcData ≠ ExtensionHeaderMissing ∧
      InsufficientCsrcData ≠ InsufficientExtensionData ∧
      ExtensionHeaderMissing ≠ InsufficientExtensionData) ∧
    (HeaderTooSmall.description ≠ InsufficientCsrcData.description ∧
      HeaderTooSmall.description ≠ ExtensionHeaderMissing.description ∧
      HeaderTooSmall.description ≠ InsufficientExtensionData.description ∧
      InsufficientCsrcData.description ≠ ExtensionHeaderMissing.description ∧
      InsufficientCsrcData.description ≠ InsufficientExtensionData.description ∧
      ExtensionHeaderMissing.description ≠ InsufficientExtensionData.description) ∧
    (∀ buf e, Header.from_buf buf = some (Except.error e) →
      e = HeaderTooSmall ∨ e = InsufficientCsrcData ∨
        e = ExtensionHeaderMissing ∨ e = InsufficientExtensionData) ∧
    (∀ buf, Header.from_buf buf = some (Except.error HeaderTooSmall) ↔
      buf.length < 12) ∧
    (∀ buf, Header.from_buf buf = some (Except.error InsufficientCsrcData) ↔
      12 ≤ buf.length ∧ buf.length - 12 < (infoOf buf).csrc_count * 4) ∧
    (∀ buf, Header.from_buf buf = some (Except.error ExtensionHeaderMissing) ↔
      12 ≤ buf.length ∧ (infoOf buf).csrc_count * 4 ≤ buf.length - 12 ∧
        (infoOf buf).has_extension = true ∧ (extBufOf buf).length < 4) ∧
    (∀ buf, Header.from_buf buf = some (Except.error InsufficientExtensionData) ↔
      12 ≤ buf.length ∧ (infoOf buf).csrc_count * 4 ≤ buf.length - 12 ∧
        (infoOf buf).has_extension = true ∧ 4 ≤ (extBufOf buf).length ∧
        (extBufOf buf).length - 4 < ehlOf (extBufOf buf) * 4) ∧
    (∀ buf, (∃ hdr, Header.from_buf buf = some (Except.ok hdr)) ↔
      meetsLengthRequirements buf) := by
  refine ⟨⟨by decide, by decide, by decide, by decide, by decide, by decide⟩,
    ⟨by decide, by decide, by decide, by decide, by decide, by decide⟩,
    ?_, ?_, ?_, ?_, ?_, ?_⟩
  · intro buf e h
    rcases from_buf_cases buf with ⟨_, heq⟩ | ⟨_, _, heq⟩ |
      ⟨_, _, _, _, heq⟩ | ⟨_, _, _, _, _, heq⟩ | ⟨_, hdr, heq⟩
    · rw [heq] at h
      simp only [Option.some.injEq, Except.error.injEq] at h
      exact Or.inl h.symm
    · rw [heq] at h
      simp only [Option.some.injEq, Except.error.injEq] at h
      exact Or.inr (Or.inl h.symm)
    · rw [heq] at h
      simp only [Option.some.injEq, Except.error.injEq] at h
      exact Or.inr (Or.inr (Or.inl h.symm))
    · rw [heq] at h
      simp only [Option.some.injEq, Except.error.injEq] at h
      exact Or.inr (Or.inr (Or.inr h.symm))
    · rw [heq] at h
      simp at h
  · intro buf
    constructor
    · intro h
      rcases from_buf_cases buf with ⟨h12, heq⟩ | ⟨h12, hc, heq⟩ |
        ⟨h12, _, _, _, heq⟩ | ⟨h12, _, _, _, _, heq⟩ | ⟨_, hdr, heq⟩
      · exact h12
      · rw [heq] at h
        simp only [Option.some.injEq, Except.error.injEq] at h
        exact absurd h (by decide)
      · rw [heq] at h
        simp only [Option.some.injEq, Except.error.injEq] at h
        exact absurd h (by decide)
      · rw [heq] at h
        simp only [Option.some.injEq, Except.error.injEq] at h
        exact absurd h (by decide)
      · rw [heq] at h
        simp at h
    · exact fun h => from_buf_too_small buf h
  · intro buf
    constructor
    · intro h
      rcases from_buf_cases buf with ⟨h12, heq⟩ | ⟨h12, hc, heq⟩ |
        ⟨h12, _, _, _, heq⟩ | ⟨h12, _, _, _, _, heq⟩ | ⟨_, hdr, heq⟩
      · rw [heq] at h
        simp only [Option.some.injEq, Except.error.injEq] at h
        exact absurd h (by decide)
      · exact ⟨h12, hc⟩
      · rw [heq] at h
        simp only [Option.some.injEq, Except.error.injEq] at h
        exact absurd h (by decide)
      · rw [heq] at h
        simp only [Option.some.injEq, Except.error.injEq] at h
        exact absurd h (by decide)
      · rw [heq] at h
        simp at h
    · intro h
      rcases from_buf_cases buf with ⟨h12, heq⟩ | ⟨h12, hc, heq⟩ |
        ⟨h12, hc, hx, h4, heq⟩ | ⟨h12, hc, hx, h4, hehl, heq⟩ |
        ⟨hm, hdr, heq⟩
      · omega
      · exact heq
      · omega
      · omega
      · exact absurd hm.2.1 (by omega)
  · intro buf
    constructor
    · intro h
      rcases from_buf_cases buf with ⟨h12, heq⟩ | ⟨h12, hc, heq⟩ |
        ⟨h12, hc, hx, h4, heq⟩ | ⟨h12, hc, hx, h4, hehl, heq⟩ |
        ⟨hm, hdr, heq⟩
      · rw [heq] at h
        simp only [Option.some.injEq, Except.error.injEq] at h
        exact absurd h (by decide)
      · rw [heq] at h
        simp only [Option.some.injEq, Except.error.injEq] at h
        exact absurd h (by decide)
      · exact ⟨h12, hc, hx, h4⟩
      · rw [heq] at h
        simp only [Option.some.injEq, Except.error.injEq] at h
        exact absurd h (by decide)
      · rw [heq] at h
        simp at h
    · intro h
      rcases from_buf_cases buf with ⟨h12, heq⟩ | ⟨h12, hc, heq⟩ |
        ⟨h12, hc, hx, h4, heq⟩ | ⟨h12, hc, hx, h4, hehl, heq⟩ |
        ⟨hm, hdr, heq⟩
      · omega
      · exact absurd h.2.1 (by omega)
      · exact heq
      · exact absurd h.2.2.2 (by omega)
      · exact absurd (hm.2.2 h.2.2.1).1 (by omega)
  · intro buf
    constructor
    · intro h
      rcases from_buf_cases buf with ⟨h12, heq⟩ | ⟨h12, hc, heq⟩ |
        ⟨h12, hc, hx, h4, heq⟩ | ⟨h12, hc, hx, h4, hehl, heq⟩ |
        ⟨hm, hdr, heq⟩
      · rw [heq] at h
        simp only [Option.some.injEq, Except.error.injEq] at h
        exact absurd h (by decide)
      · rw [heq] at h
        simp only [Option.some.injEq, Except.error.injEq] at h
        exact absurd h (by decide)
      · rw [heq] at h
        simp only [Option.some.injEq, Except.error.injEq] at h
        exact absurd h (by decide)
      · exact ⟨h12, hc, hx, h4, hehl⟩
      · rw [heq] at h
        simp at h
    · intro h
      rcases from_buf_cases buf with ⟨h12, heq⟩ | ⟨h12, hc, heq⟩ |
        ⟨h12, hc, hx, h4, heq⟩ | ⟨h12, hc, hx, h4, hehl, heq⟩ |
        ⟨hm, hdr, heq⟩
      · omega
      · exact absurd h.2.1 (by omega)
      · exact absurd h.2.2.2.1 (by omega)
      · exact heq
      · exact absurd (hm.2.2 h.2.2.1).2 (by omega)
  · intro buf
    constructor
    · intro h
      obtain ⟨hdr, h⟩ := h
      rcases from_buf_cases buf with ⟨h12, heq⟩ | ⟨h12, hc, heq⟩ |
        ⟨h12, hc, hx, h4, heq⟩ | ⟨h12, hc, hx, h4, hehl, heq⟩ |
        ⟨hm, hdr2, heq⟩
      · rw [heq] at h
        simp at h
      · rw [heq] at h
        simp at h
      · rw [heq] at h
        simp at h
      · rw [heq] at h
        simp at h
      · exact hm
    · intro h
      rcases from_buf_cases buf with ⟨h12, heq⟩ | ⟨h12, hc, heq⟩ |
        ⟨h12, hc, hx, h4, heq⟩ | ⟨h12, hc, hx, h4, hehl, heq⟩ |
        ⟨hm, hdr, heq⟩
      · exact absurd h.1 (by omega)
      · exact absurd h.2.1 (by omega)
      · exact absurd (h.2.2 hx).1 (by omega)
      · exact absurd (h.2.2 hx).2 (by omega)
      · exact ⟨hdr, heq⟩

/-- Witness for C8: the HeaderTooSmall characterization applied to the
empty buffer. -/
theorem rtp_C8_witness :
    Header.from_buf [] = some (Except.error HeaderTooSmall) :=
  (rtp_C8_error_taxonomy.2.2.2.1 []).mpr (by decide)

/-- The number of bytes the header parser consumes to produce a given
Header: 12 fixed bytes, 4 per CSRC identifier, and, when an extension is
present, 4 extension header bytes plus 4 per extension word. -/
def consumedLen (hdr : Header) : Nat :=
  12 + hdr.csrc_identifiers.identifiers.length * 4 +
    (match hdr.extension with
     | none => 0
     | some e => 4 + e.extension.length * 4)

/-- Two buffers agreeing on their first `n * 4` bytes yield the same `n`
words under `readWords`. -/
theorem readWords_congr (n : Nat) (l1 l2 : List Nat) (h1 : n * 4 ≤ l1.length)
    (h2 : n * 4 ≤ l2.length) (hagree : l1.take (n * 4) = l2.take (n * 4)) :
    ∃ ws, readWords n l1 = some (ws, l1.drop (n * 4)) ∧
      readWords n l2 = some (ws, l2.drop (n * 4)) := by
  induction n generalizing l1 l2 with
  | zero => exact ⟨[], by simp [readWords], by simp [readWords]⟩
  | succ n ih =>
    obtain ⟨a, b, c, d, t1, rfl⟩ := exists_cons4 l1 (by omega)
    obtain ⟨a2, b2, c2, d2, t2, rfl⟩ := exists_cons4 l2 (by omega)
    have h4 : (n + 1) * 4 = n * 4 + 4 := by ring
    rw [h4] at hagree
    have e1 : (a :: b :: c :: d :: t1).take (n * 4 + 4) =
        a :: b :: c :: d :: t1.take (n * 4) := rfl
    have e2 : (a2 :: b2 :: c2 :: d2 :: t2).take (n * 4 + 4) =
        a2 :: b2 :: c2 :: d2 :: t2.take (n * 4) := rfl
    rw [e1, e2] at hagree
    simp only [List.cons.injEq] at hagree
    obtain ⟨ha, hb, hc, hd, ht⟩ := hagree
    subst ha
    subst hb
    subst hc
    subst hd
    have ht1 : n * 4 ≤ t1.length := by
      simp only [List.length_cons] at h1
      omega
    have ht2 : n * 4 ≤ t2.length := by
      simp only [List.length_cons] at h2
      omega
    obtain ⟨ws, hw1, hw2⟩ := ih t1 t2 ht1 ht2 ht
    refine ⟨(a * 16777216 + b * 65536 + c * 256 + d) :: ws, ?_, ?_⟩
    · have hd1 : (a :: b :: c :: d :: t1).drop ((n + 1) * 4) =
          t1.drop (n * 4) := by
        rw [h4]
        rfl
      rw [hd1]
      simp only [readWords, read_u32, List.drop]
      rw [hw1]
    · have hd2 : (a :: b :: c :: d :: t2).drop ((n + 1) * 4) =
          t2.drop (n * 4) := by
        rw [h4]
        rfl
      rw [hd2]
      simp only [readWords, read_u32, List.drop]
      rw [hw2]

/-- Only the consumed prefix matters: any buffer starting with the bytes
the parser consumed to produce a Header parses to that same Header,
whatever follows. -/
theorem from_buf_prefix (buf : List Nat) (hdr : Header) (rest2 : List Nat)
    (h : Header.from_buf buf = some (Except.ok hdr)) :
    Header.from_buf (buf.take (consumedLen hdr) ++ rest2) =
      some (Except.ok hdr) := by
  by_cases h12 : buf.length < 12
  · rw [from_buf_too_small buf h12] at h
    simp at h
  obtain ⟨b0, b1, b2, b3, b4, b5, b6, b7, b8, b9, b10, b11, rest, rfl⟩ :=
    exists_cons12 buf (by omega)
  have htake12 : ∀ k : Nat,
      (b0 :: b1 :: b2 :: b3 :: b4 :: b5 :: b6 :: b7 :: b8 :: b9 :: b10 :: b11 :: rest).take
        (12 + k) =
      b0 :: b1 :: b2 :: b3 :: b4 :: b5 :: b6 :: b7 :: b8 :: b9 :: b10 :: b11 ::
        rest.take k := by
    intro k
    rw [List.take_add]
    rfl
  by_cases hcl : rest.length < (HeaderInfo.mk (b0 * 256 + b1)).csrc_count * 4
  · rw [from_buf_csrc_err b0 b1 b2 b3 b4 b5 b6 b7 b8 b9 b10 b11 rest hcl] at h
    simp at h
  by_cases hx : (HeaderInfo.mk (b0 * 256 + b1)).has_extension
  · obtain ⟨ws, hws, hwl, heq⟩ :=
      from_buf_ext_delegate b0 b1 b2 b3 b4 b5 b6 b7 b8 b9 b10 b11 rest
        (by omega) hx
    rw [heq] at h
    by_cases hel : (rest.drop ((HeaderInfo.mk (b0 * 256 + b1)).csrc_count * 4)).length < 4
    · rw [ext_too_small _ hel] at h
      simp at h
    obtain ⟨e0, e1, e2, e3, tail, hsplit⟩ :=
      exists_cons4 (rest.drop ((HeaderInfo.mk (b0 * 256 + b1)).csrc_count * 4))
        (by omega)
    rw [hsplit] at h
    by_cases hins : tail.length < (e2 * 256 + e3) * 4
    · rw [ext_err_insufficient e0 e1 e2 e3 tail hins] at h
      simp at h
    obtain ⟨ws2, hws2, hwl2, hok⟩ := ext_ok_char e0 e1 e2 e3 tail (by omega)
    rw [hok] at h
    simp only [Option.some.injEq, Except.ok.injEq] at h
    subst h
    have hdroplen : (rest.drop ((HeaderInfo.mk (b0 * 256 + b1)).csrc_count * 4)).length =
        tail.length + 4 := by
      rw [hsplit]
      simp
    have hNval : consumedLen
        ⟨HeaderInfo.mk (b0 * 256 + b1), b2 * 256 + b3,
          b4 * 16777216 + b5 * 65536 + b6 * 256 + b7,
          b8 * 16777216 + b9 * 65536 + b10 * 256 + b11, ⟨ws⟩,
          some ⟨e0 * 256 + e1, e2 * 256 + e3, ws2⟩⟩ =
        12 + ((HeaderInfo.mk (b0 * 256 + b1)).csrc_count * 4 +
          (4 + (e2 * 256 + e3) * 4)) := by
      simp only [consumedLen]
      rw [hwl, hwl2]
      omega
    have htakeC : rest.take ((HeaderInfo.mk (b0 * 256 + b1)).csrc_count * 4 +
        (4 + (e2 * 256 + e3) * 4)) =
        rest.take ((HeaderInfo.mk (b0 * 256 + b1)).csrc_count * 4) ++
          (e0 :: e1 :: e2 :: e3 :: tail.take ((e2 * 256 + e3) * 4)) := by
      rw [List.take_add]
      congr 1
      rw [hsplit, show 4 + (e2 * 256 + e3) * 4 = (e2 * 256 + e3) * 4 + 4 from by
        omega]
      rfl
    have hAlen : (rest.take ((HeaderInfo.mk (b0 * 256 + b1)).csrc_count * 4)).length =
        (HeaderInfo.mk (b0 * 256 + b1)).csrc_count * 4 := by
      simp only [List.length_take]
      omega
    have hBlen : (tail.take ((e2 * 256 + e3) * 4)).length = (e2 * 256 + e3) * 4 := by
      simp only [List.length_take]
      omega
    have hbufeq :
        (b0 :: b1 :: b2 :: b3 :: b4 :: b5 :: b6 :: b7 :: b8 :: b9 :: b10 :: b11 :: rest).take
            (consumedLen
              ⟨HeaderInfo.mk (b0 * 256 + b1), b2 * 256 + b3,
                b4 * 16777216 + b5 * 65536 + b6 * 256 + b7,
                b8 * 16777216 + b9 * 65536 + b10 * 256 + b11, ⟨ws⟩,
                some ⟨e0 * 256 + e1, e2 * 256 + e3, ws2⟩⟩) ++ rest2 =
        b0 :: b1 :: b2 :: b3 :: b4 :: b5 :: b6 :: b7 :: b8 :: b9 :: b10 :: b11 ::
          (rest.take ((HeaderInfo.mk (b0 * 256 + b1)).csrc_count * 4) ++
            (e0 :: e1 :: e2 :: e3 ::
              (tail.take ((e2 * 256 + e3) * 4) ++ rest2))) := by
      rw [hNval, htake12, htakeC]
      simp [List.cons_append, List.append_assoc]
    have hlen2 : (HeaderInfo.mk (b0 * 256 + b1)).csrc_count * 4 ≤
        (rest.take ((HeaderInfo.mk (b0 * 256 + b1)).csrc_count * 4) ++
          (e0 :: e1 :: e2 :: e3 ::
            (tail.take ((e2 * 256 + e3) * 4) ++ rest2))).length := by
      simp only [List.length_append, hAlen]
      omega
    obtain ⟨wsC, hC1, hC2⟩ := readWords_congr
      ((HeaderInfo.mk (b0 * 256 + b1)).csrc_count) rest
      (rest.take ((HeaderInfo.mk (b0 * 256 + b1)).csrc_count * 4) ++
        (e0 :: e1 :: e2 :: e3 :: (tail.take ((e2 * 256 + e3) * 4) ++ rest2)))
      (by omega) hlen2
      (by rw [List.take_left' hAlen])
    rw [hws] at hC1
    simp only [Option.some.injEq, Prod.mk.injEq] at hC1
    obtain ⟨hCws, _⟩ := hC1
    subst hCws
    obtain ⟨wsD, hD1, hD2⟩ := readWords_congr (e2 * 256 + e3) tail
      (tail.take ((e2 * 256 + e3) * 4) ++ rest2)
      (by omega)
      (by simp only [List.length_append, hBlen]; omega)
      (by rw [List.take_left' hBlen])
    rw [hws2] at hD1
    simp only [Option.some.injEq, Prod.mk.injEq] at hD1
    obtain ⟨hDws, _⟩ := hD1
    subst hDws
    have hdrop2 : (rest.take ((HeaderInfo.mk (b0 * 256 + b1)).csrc_count * 4) ++
        (e0 :: e1 :: e2 :: e3 ::
          (tail.take ((e2 * 256 + e3) * 4) ++ rest2))).drop
        ((HeaderInfo.mk (b0 * 256 + b1)).csrc_count * 4) =
        e0 :: e1 :: e2 :: e3 ::
          (tail.take ((e2 * 256 + e3) * 4) ++ rest2) :=
      List.drop_left' hAlen
    have hparse : HeaderExtension.from_buf
        ((rest.take ((HeaderInfo.mk (b0 * 256 + b1)).csrc_count * 4) ++
          (e0 :: e1 :: e2 :: e3 ::
            (tail.take ((e2 * 256 + e3) * 4) ++ rest2))).drop
          ((HeaderInfo.mk (b0 * 256 + b1)).csrc_count * 4)) =
        some (Except.ok ⟨e0 * 256 + e1, e2 * 256 + e3, ws2⟩) := by
      rw [hdrop2, ext_from_buf_cons]
      rw [if_neg (by simp only [List.length_append, hBlen]; omega)]
      rw [hD2]
    rw [hbufeq, from_buf_cons12, if_neg (by omega), hC2]
    simp [hx, hparse]
  · obtain ⟨ws, hws, hwl, heq⟩ :=
      from_buf_ok_noext b0 b1 b2 b3 b4 b5 b6 b7 b8 b9 b10 b11 rest
        (by omega) (by simpa using hx)
    rw [heq] at h
    simp only [Option.some.injEq, Except.ok.injEq] at h
    subst h
    have hNval : consumedLen
        ⟨HeaderInfo.mk (b0 * 256 + b1), b2 * 256 + b3,
          b4 * 16777216 + b5 * 65536 + b6 * 256 + b7,
          b8 * 16777216 + b9 * 65536 + b10 * 256 + b11, ⟨ws⟩, none⟩ =
        12 + (HeaderInfo.mk (b0 * 256 + b1)).csrc_count * 4 := by
      simp only [consumedLen]
      rw [hwl]
      omega
    have hAlen : (rest.take ((HeaderInfo.mk (b0 * 256 + b1)).csrc_count * 4)).length =
        (HeaderInfo.mk (b0 * 256 + b1)).csrc_count * 4 := by
      simp only [List.length_take]
      omega
    have hbufeq :
        (b0 :: b1 :: b2 :: b3 :: b4 :: b5 :: b6 :: b7 :: b8 :: b9 :: b10 :: b11 :: rest).take
            (consumedLen
              ⟨HeaderInfo.mk (b0 * 256 + b1), b2 * 256 + b3,
                b4 * 16777216 + b5 * 65536 + b6 * 256 + b7,
                b8 * 16777216 + b9 * 65536 + b10 * 256 + b11, ⟨ws⟩, none⟩) ++
          rest2 =
        b0 :: b1 :: b2 :: b3 :: b4 :: b5 :: b6 :: b7 :: b8 :: b9 :: b10 :: b11 ::
          (rest.take ((HeaderInfo.mk (b0 * 256 + b1)).csrc_count * 4) ++ rest2) := by
      rw [hNval, htake12]
      simp [List.cons_append]
    have hlen2 : (HeaderInfo.mk (b0 * 256 + b1)).csrc_count * 4 ≤
        (rest.take ((HeaderInfo.mk (b0 * 256 + b1)).csrc_count * 4) ++ rest2).length := by
      simp only [List.length_append, hAlen]
      omega
    obtain ⟨wsC, hC1, hC2⟩ := readWords_congr
      ((HeaderInfo.mk (b0 * 256 + b1)).csrc_count) rest
      (rest.take ((HeaderInfo.mk (b0 * 256 + b1)).csrc_count * 4) ++ rest2)
      (by omega) hlen2
      (by rw [List.take_left' hAlen])
    rw [hws] at hC1
    simp only [Option.some.injEq, Prod.mk.injEq] at hC1
    obtain ⟨hCws, _⟩ := hC1
    subst hCws
    rw [hbufeq, from_buf_cons12, if_neg (by omega), hC2]
    simp [hx]

/-- Claim C9: the parse result depends only on the consumed header prefix:
any buffer agreeing with a successfully parsed buffer on its consumed
prefix (12 bytes, plus 4 per CSRC, plus the extension section when the
extension flag is set) parses to the same Header, and whatever follows
that prefix never affects the result. -/
theorem rtp_C9_prefix_dependence (buf1 buf2 : List Nat) (hdr : Header)
    (h1 : Header.from_buf buf1 = some (Except.ok hdr))
    (hagree : buf2.take (consumedLen hdr) = buf1.take (consumedLen hdr)) :
    Header.from_buf buf2 = some (Except.ok hdr) ∧
      ∀ tail2, Header.from_buf (buf1.take (consumedLen hdr) ++ tail2) =
        some (Except.ok hdr) := by
  constructor
  · have hpre := from_buf_prefix buf1 hdr (buf2.drop (consumedLen hdr)) h1
    rw [← hagree] at hpre
    rwa [List.take_append_drop] at hpre
  · exact fun tail2 => from_buf_prefix buf1 hdr tail2 h1

/-- Witness for C9: the all-zero 12-byte packet and the same packet with
a trailing payload byte parse identically. -/
theorem rtp_C9_witness :
    Header.from_buf [0, 0, 0, 0, 0, 0, 0, 0, 0, 0, 0, 0] =
        some (Except.ok (⟨⟨0⟩, 0, 0, 0, ⟨[]⟩, none⟩ : Header)) ∧
      ([0, 0, 0, 0, 0, 0, 0, 0, 0, 0, 0, 0, 9] : List Nat).take
          (consumedLen (⟨⟨0⟩, 0, 0, 0, ⟨[]⟩, none⟩ : Header)) =
        ([0, 0, 0, 0, 0, 0, 0, 0, 0, 0, 0, 0] : List Nat).take
          (consumedLen (⟨⟨0⟩, 0, 0, 0, ⟨[]⟩, none⟩ : Header)) ∧
      (Header.from_buf [0, 0, 0, 0, 0, 0, 0, 0, 0, 0, 0, 0, 9] =
          some (Except.ok (⟨⟨0⟩, 0, 0, 0, ⟨[]⟩, none⟩ : Header)) ∧
        ∀ tail2, Header.from_buf
            (([0, 0, 0, 0, 0, 0, 0, 0, 0, 0, 0, 0] : List Nat).take
              (consumedLen (⟨⟨0⟩, 0, 0, 0, ⟨[]⟩, none⟩ : Header)) ++ tail2) =
          some (Except.ok (⟨⟨0⟩, 0, 0, 0, ⟨[]⟩, none⟩ : Header))) :=
  ⟨by rfl, by rfl,
    rtp_C9_prefix_dependence [0, 0, 0, 0, 0, 0, 0, 0, 0, 0, 0, 0]
      [0, 0, 0, 0, 0, 0, 0, 0, 0, 0, 0, 0, 9] ⟨⟨0⟩, 0, 0, 0, ⟨[]⟩, none⟩
      (by rfl) (by rfl)⟩
